import Mathlib

/-!
Shallow embedding of the crann v2 store/agent core
(src/store/StateManager.ts, src/store/ActionExecutor.ts, src/store/Persistence.ts,
src/store/Store.ts, src/agent/Agent.ts, src/store/types.ts), together with
theorems settling the specification claims about it.

JavaScript values are modelled by an inductive `Value`; JS objects by
association lists in key order (`Obj`); object spread `{...a, ...b}` by
`mergeObj`; `Map` by an association list with `setAssoc`/`removeAssoc`.
-/

namespace Crann

/-- A JavaScript value, as far as the store core inspects one.  The core never
looks inside a state value: it only copies values and compares them for deep
equality, so atomic values model the value space without loss for the
properties proved here. -/
inductive Value where
  | vNull
  | vBool (b : Bool)
  | vInt (n : Int)
  | vStr (s : String)
deriving DecidableEq, Repr

/-- A JS object: fields in key order, keys unique in any object the code builds. -/
abbrev Obj := List (String × Value)

/-- Property read `o[k]` (first binding wins, mirroring unique JS keys). -/
def getObj (o : Obj) (k : String) : Option Value :=
  (o.find? (fun p => p.1 == k)).map (fun p => p.2)

/-- The `k in o` test. -/
def hasKey (o : Obj) (k : String) : Bool :=
  o.any (fun p => p.1 == k)

/-- Object spread `{...a, ...b}`: key order of `a`, values of `b` winning,
then `b`'s new keys in `b`'s order. -/
def mergeObj (a b : Obj) : Obj :=
  a.map (fun p => match getObj b p.1 with
    | some v => (p.1, v)
    | none => p) ++
  b.filter (fun p => !hasKey a p.1)

/-- Generic association-list lookup (used for `Map.get`). -/
def lookupAssoc {κ α : Type} [BEq κ] (m : List (κ × α)) (k : κ) : Option α :=
  (m.find? (fun p => p.1 == k)).map (fun p => p.2)

/-- `Map.set`: replace in place if the key exists, else append. -/
def setAssoc {κ α : Type} [BEq κ] (m : List (κ × α)) (k : κ) (v : α) : List (κ × α) :=
  if m.any (fun p => p.1 == k) then
    m.map (fun p => if p.1 == k then (k, v) else p)
  else
    m ++ [(k, v)]

/-- `Map.delete`. -/
def removeAssoc {κ α : Type} [BEq κ] (m : List (κ × α)) (k : κ) : List (κ × α) :=
  m.filter (fun p => !(p.1 == k))

/-- Modelled from the spec: the `deepEqual` utility (src/utils/deepEqual.ts is not
among the sources); "a structural deep-equality check".  On this value model,
structural deep equality is structural equality.  Every use site compares an
object with its own spread-merge, where key order is preserved, so the
order-sensitivity of the list representation is unobservable. -/
def deepEqual (a b : Obj) : Bool :=
  a == b

-- =============================================================================
-- Decimal rendering of a Nat (the `${version}` and `${callId++}` interpolations)
-- =============================================================================

/-- The character of a single decimal digit. -/
def digChar (d : Nat) : Char :=
  Char.ofNat (48 + d)

/-- Decimal digits of a positive number, most significant first; structurally
recursive on a fuel bound (any `fuel ≥ n` yields the digits of `n`). -/
def natReprGo : Nat → Nat → List Char
  | 0, _ => []
  | _ + 1, 0 => []
  | fuel + 1, n + 1 => natReprGo fuel ((n + 1) / 10) ++ [digChar ((n + 1) % 10)]

/-- Decimal rendering of a natural number, as JS template interpolation does. -/
def natRepr (n : Nat) : String :=
  if n = 0 then "0" else String.mk (natReprGo n n)

/-- Value of a digit string, used to prove `natRepr` injective. -/
def decVal (cs : List Char) : Nat :=
  cs.foldl (fun a c => 10 * a + (c.toNat - 48)) 0

-- =============================================================================
-- Config model (src/store/types.ts)
-- =============================================================================

/-- `Scope` constants. -/
inductive ScopeT where
  | Shared
  | Agent
deriving DecidableEq, Repr

/-- `Persist` constants. -/
inductive PersistT where
  | Local
  | Session
  | None
deriving DecidableEq, Repr

/-- A `StateItemDefinition`: `{default, scope?, persist?}`. -/
structure StateItem where
  dflt : Value
  scope : Option ScopeT
  persist : Option PersistT
deriving DecidableEq, Repr

/-- The state-item part of a validated config: `name`, `version` and the state
item entries in declaration order (the `name`/`version`/`actions` keys that the
source skips over in every `Object.entries(config)` loop are held apart). -/
structure Config where
  name : String
  version : Nat
  items : List (String × StateItem)
deriving DecidableEq, Repr

/-- `this.config[key]` followed by the `isStateItem` guard. -/
def lookupItem (cfg : Config) (k : String) : Option StateItem :=
  lookupAssoc cfg.items k

/-- The `^[a-zA-Z][a-zA-Z0-9_-]*$` name test that `createConfig` enforces. -/
def nameOk (s : String) : Bool :=
  match s.data with
  | [] => false
  | c :: cs => (c.isAlpha) && cs.all (fun d => d.isAlphanum || d = '_' || d = '-')

-- =============================================================================
-- StateManager (src/store/StateManager.ts)
-- =============================================================================

/-- `buildDefaultSharedState`: entries whose scope is absent or `shared`. -/
def buildDefaultSharedState (cfg : Config) : Obj :=
  cfg.items.filterMap (fun p =>
    if p.2.scope = none ∨ p.2.scope = some ScopeT.Shared then some (p.1, p.2.dflt) else none)

/-- `buildDefaultAgentState`: entries whose scope is `agent`. -/
def buildDefaultAgentState (cfg : Config) : Obj :=
  cfg.items.filterMap (fun p =>
    if p.2.scope = some ScopeT.Agent then some (p.1, p.2.dflt) else none)

/-- The mutable fields of a `StateManager`. -/
structure ManagerState where
  sharedState : Obj
  agentStates : List (String × Obj)
deriving DecidableEq, Repr

/-- The manager as the constructor leaves it. -/
def mgrInit (cfg : Config) : ManagerState :=
  { sharedState := buildDefaultSharedState cfg, agentStates := [] }

/-- `getSharedState()` (the returned object is a copy; aliasing is modelled
separately with the heap model below). -/
def smGetSharedState (ms : ManagerState) : Obj :=
  ms.sharedState

/-- `getAgentState(agentId)`: the stored entry, else a copy of the defaults. -/
def smGetAgentState (cfg : Config) (ms : ManagerState) (agentId : String) : Obj :=
  (lookupAssoc ms.agentStates agentId).getD (buildDefaultAgentState cfg)

/-- `getFullStateForAgent`. -/
def smGetFullStateForAgent (cfg : Config) (ms : ManagerState) (agentId : String) : Obj :=
  mergeObj ms.sharedState (smGetAgentState cfg ms agentId)

/-- The key loop of `setState`: split the argument into `sharedChanges` and
`agentChanges`.  Keys absent from config are skipped; agent-scoped keys are
kept only when an `agentId` was supplied; everything else goes to shared. -/
def routeChanges (cfg : Config) (agentId : Option String) : Obj → Obj × Obj
  | [] => ([], [])
  | (k, v) :: rest =>
    let pr := routeChanges cfg agentId rest
    match lookupItem cfg k with
    | none => pr
    | some it =>
      if it.scope = some ScopeT.Agent then
        if agentId.isSome then (pr.1, (k, v) :: pr.2) else pr
      else ((k, v) :: pr.1, pr.2)

/-- `StateManager.setState(state, agentId?)`: route, then apply each side under
its `deepEqual` guard; returns the new manager plus `{sharedChanges, agentChanges}`. -/
def smSetState (cfg : Config) (ms : ManagerState) (stateArg : Obj) (agentId : Option String) :
    ManagerState × Obj × Obj :=
  let rc := routeChanges cfg agentId stateArg
  let sharedChanges := rc.1
  let agentChanges := rc.2
  let ms1 :=
    if sharedChanges.isEmpty then ms
    else
      let newShared := mergeObj ms.sharedState sharedChanges
      if deepEqual ms.sharedState newShared then ms
      else { ms with sharedState := newShared }
  let ms2 :=
    match agentId with
    | none => ms1
    | some aid =>
      if agentChanges.isEmpty then ms1
      else
        let cur := (lookupAssoc ms1.agentStates aid).getD (buildDefaultAgentState cfg)
        let newAgent := mergeObj cur agentChanges
        if deepEqual cur newAgent then ms1
        else { ms1 with agentStates := setAssoc ms1.agentStates aid newAgent }
  (ms2, sharedChanges, agentChanges)

/-- `setAgentState(agentId, state)`. -/
def smSetAgentState (cfg : Config) (ms : ManagerState) (agentId : String) (stateArg : Obj) :
    ManagerState :=
  let cur := (lookupAssoc ms.agentStates agentId).getD (buildDefaultAgentState cfg)
  let newState := mergeObj cur stateArg
  if deepEqual cur newState then ms
  else { ms with agentStates := setAssoc ms.agentStates agentId newState }

/-- `hydrateSharedState(state)`. -/
def smHydrateSharedState (cfg : Config) (ms : ManagerState) (stateArg : Obj) : ManagerState :=
  { ms with sharedState := mergeObj (buildDefaultSharedState cfg) stateArg }

/-- `initializeAgentState(agentId)`. -/
def smInitializeAgentState (cfg : Config) (ms : ManagerState) (agentId : String) : ManagerState :=
  if (lookupAssoc ms.agentStates agentId).isSome then ms
  else { ms with agentStates := setAssoc ms.agentStates agentId (buildDefaultAgentState cfg) }

/-- `removeAgentState(agentId)`. -/
def smRemoveAgentState (ms : ManagerState) (agentId : String) : ManagerState :=
  { ms with agentStates := removeAssoc ms.agentStates agentId }

/-- `clear()`. -/
def smClear (cfg : Config) (_ms : ManagerState) : ManagerState :=
  { sharedState := buildDefaultSharedState cfg, agentStates := [] }

-- =============================================================================
-- Persistence (src/store/Persistence.ts)
-- =============================================================================

/-- `buildKey`: the exact template `crann:{name}:v{version}:{key}`. -/
def buildKey (cfg : Config) (k : String) : String :=
  "crann:" ++ cfg.name ++ ":v" ++ natRepr cfg.version ++ ":" ++ k

/-- `getMetaKey`: `crann:{name}:__meta`. -/
def getMetaKey (cfg : Config) : String :=
  "crann:" ++ cfg.name ++ ":__meta"

/-- The two storage tiers (`browser.storage.local` / `browser.storage.session`),
each an opaque key-value map. -/
structure Storages where
  localStore : Obj
  sessionStore : Obj
deriving DecidableEq, Repr

/-- The per-key loop of `persist`: build `localUpdates` and `sessionUpdates`
(in entry order), routing each configured key's value to the tier its
`persist` mode names and skipping everything else. -/
def persistPlan (cfg : Config) : Obj → Obj × Obj
  | [] => ([], [])
  | (k, v) :: rest =>
    let pr := persistPlan cfg rest
    match lookupItem cfg k with
    | none => pr
    | some it =>
      match it.persist with
      | some PersistT.Local => ((buildKey cfg k, v) :: pr.1, pr.2)
      | some PersistT.Session => (pr.1, (buildKey cfg k, v) :: pr.2)
      | _ => pr

/-- `persist(state)`: apply the batched tier writes; the two booleans record
whether `storage.local.set` / `storage.session.set` were actually called. -/
def persistRun (cfg : Config) (st : Storages) (stateArg : Obj) : Storages × Bool × Bool :=
  let pl := persistPlan cfg stateArg
  (⟨mergeObj st.localStore pl.1, mergeObj st.sessionStore pl.2⟩,
   !pl.1.isEmpty, !pl.2.isEmpty)

/-- `hydrate()`: read both tiers, overlay session on local (`{...local, ...session}`),
then keep, for each config entry that is shared-scoped and persist-enabled, the
value stored under this store's own `buildKey`.  (The metadata upsert that
`hydrate` also performs touches only `crann:{name}:__meta` and is not part of
the returned state.) -/
def hydrate (cfg : Config) (st : Storages) : Obj :=
  let combined := mergeObj st.localStore st.sessionStore
  cfg.items.filterMap (fun p =>
    if p.2.scope = some ScopeT.Agent then none
    else match p.2.persist with
      | none => none
      | some PersistT.None => none
      | some _ =>
        match getObj combined (buildKey cfg p.1) with
        | some v => some (p.1, v)
        | none => none)

/-- `clearAll()`: the keys removed from both tiers. -/
def clearAllKeys (cfg : Config) : List String :=
  (cfg.items.filterMap (fun p =>
    match p.2.persist with
    | some PersistT.Local => some (buildKey cfg p.1)
    | some PersistT.Session => some (buildKey cfg p.1)
    | _ => none)) ++ [getMetaKey cfg]

-- =============================================================================
-- Store orchestrator (src/store/Store.ts)
-- =============================================================================

/-- The mutable fields of a `Store` that the claims observe: the state manager,
the storage collaborator, the agent registry (ids in registration order), the
sizes of the three listener sets, and the destroyed flag. -/
structure StoreModel where
  mgr : ManagerState
  storages : Storages
  registry : List String
  listenerCount : Nat
  connectListenerCount : Nat
  disconnectListenerCount : Nat
  isDestroyed : Bool
deriving DecidableEq, Repr

/-- A fresh store over empty storage with no connections or listeners. -/
def storeInit (cfg : Config) : StoreModel :=
  { mgr := mgrInit cfg, storages := ⟨[], []⟩, registry := [], listenerCount := 0,
    connectListenerCount := 0, disconnectListenerCount := 0, isDestroyed := false }

/-- The lifecycle error thrown by `assertNotDestroyed`. -/
def storeDestroyedMsg (cfg : Config) : String :=
  "Store " ++ cfg.name ++ " has been destroyed and cannot be used."

/-- One `notifyStateChange` occurrence: the changes object handed to every
local listener, the attributed agent, the number of local listener invocations,
and the targets of the `stateUpdate` transport posts (unicast to the attributed
agent when the porter knows it, else broadcast to the whole registry). -/
structure NotifyEvt where
  changes : Obj
  attributed : Option String
  listenerDeliveries : Nat
  posts : List String
deriving DecidableEq, Repr

/-- `notifyStateChange(changes, agentId?)` as an effect record.  The porter's
agent directory is modelled as agreeing with the registry. -/
def storeNotify (s : StoreModel) (changes : Obj) (agentId : Option String) : NotifyEvt :=
  { changes := changes,
    attributed := agentId,
    listenerDeliveries := s.listenerCount,
    posts :=
      match agentId with
      | some aid => if s.registry.contains aid then [aid] else []
      | none => s.registry }

/-- The effects of one `Store.setState` call. -/
structure SetStateEffects where
  persistArg : Option Obj
  localSetCalled : Bool
  sessionSetCalled : Bool
  notify : NotifyEvt
deriving DecidableEq, Repr

/-- `Store.setState(state, agentId?)`: lifecycle check, manager update, a
`persistence.persist(sharedChanges)` call whenever `sharedChanges` is
non-empty, then an unconditional `notifyStateChange(state, agentId)`. -/
def storeSetState (cfg : Config) (s : StoreModel) (stateArg : Obj) (agentId : Option String) :
    Except String (StoreModel × SetStateEffects) :=
  if s.isDestroyed then Except.error (storeDestroyedMsg cfg)
  else
    let r := smSetState cfg s.mgr stateArg agentId
    let sharedChanges := r.2.1
    let persisted :=
      if sharedChanges.isEmpty then (s.storages, false, false)
      else persistRun cfg s.storages sharedChanges
    let s1 := { s with mgr := r.1, storages := persisted.1 }
    Except.ok (s1,
      { persistArg := if sharedChanges.isEmpty then none else some sharedChanges,
        localSetCalled := persisted.2.1,
        sessionSetCalled := persisted.2.2,
        notify := storeNotify s1 stateArg agentId })

/-- `Store.setAgentState(agentId, state)`. -/
def storeSetAgentState (cfg : Config) (s : StoreModel) (agentId : String) (stateArg : Obj) :
    Except String (StoreModel × NotifyEvt) :=
  if s.isDestroyed then Except.error (storeDestroyedMsg cfg)
  else
    let s1 := { s with mgr := smSetAgentState cfg s.mgr agentId stateArg }
    Except.ok (s1, storeNotify s1 stateArg (some agentId))

/-- `Store.getState()`. -/
def storeGetState (cfg : Config) (s : StoreModel) : Except String Obj :=
  if s.isDestroyed then Except.error (storeDestroyedMsg cfg)
  else Except.ok s.mgr.sharedState

/-- `Store.getAgentState(agentId)`. -/
def storeGetAgentState (cfg : Config) (s : StoreModel) (agentId : String) : Except String Obj :=
  if s.isDestroyed then Except.error (storeDestroyedMsg cfg)
  else Except.ok (smGetAgentState cfg s.mgr agentId)

/-- `Store.clear()`. -/
def storeClear (cfg : Config) (s : StoreModel) : Except String (StoreModel × NotifyEvt) :=
  if s.isDestroyed then Except.error (storeDestroyedMsg cfg)
  else
    let s1 := { s with mgr := smClear cfg s.mgr }
    Except.ok (s1, storeNotify s1 [] none)

/-- `Store.subscribe(listener)`. -/
def storeSubscribe (cfg : Config) (s : StoreModel) : Except String StoreModel :=
  if s.isDestroyed then Except.error (storeDestroyedMsg cfg)
  else Except.ok { s with listenerCount := s.listenerCount + 1 }

/-- `Store.onAgentConnect(cb)`. -/
def storeOnAgentConnect (cfg : Config) (s : StoreModel) : Except String StoreModel :=
  if s.isDestroyed then Except.error (storeDestroyedMsg cfg)
  else Except.ok { s with connectListenerCount := s.connectListenerCount + 1 }

/-- `Store.onAgentDisconnect(cb)`. -/
def storeOnAgentDisconnect (cfg : Config) (s : StoreModel) : Except String StoreModel :=
  if s.isDestroyed then Except.error (storeDestroyedMsg cfg)
  else Except.ok { s with disconnectListenerCount := s.disconnectListenerCount + 1 }

/-- `Store.getAgents()` (no query). -/
def storeGetAgents (cfg : Config) (s : StoreModel) : Except String (List String) :=
  if s.isDestroyed then Except.error (storeDestroyedMsg cfg)
  else Except.ok s.registry

/-- `Store.destroy(options?)`: early-returns when already destroyed, else
clears every listener set and the registry; the boolean reports whether
`persistence.clearAll()` was fired. -/
def storeDestroy (s : StoreModel) (clearPersisted : Bool) : StoreModel × Bool :=
  if s.isDestroyed then (s, false)
  else
    ({ s with isDestroyed := true, listenerCount := 0, connectListenerCount := 0,
              disconnectListenerCount := 0, registry := [] },
     clearPersisted)

-- =============================================================================
-- Transport-facing data (src/transport types, as consumed by the core)
-- =============================================================================

/-- A `BrowserLocation`. -/
structure BrowserLoc where
  context : String
  tabId : Int
  frameId : Int
deriving DecidableEq, Repr

/-- An `AgentInfo` as the transport hands it to the store. -/
structure AgentInfoT where
  id : String
  location : BrowserLoc
deriving DecidableEq, Repr

-- =============================================================================
-- ActionExecutor (src/store/ActionExecutor.ts)
-- =============================================================================

/-- The structured errors of src/errors.ts that `execute` can produce:
`ActionError(action, store, msg)` and `ValidationError(action, store, msg)`. -/
inductive CrannErr where
  | actionErr (action store msg : String)
  | validationErr (action store msg : String)
deriving DecidableEq, Repr

/-- The context handed to an action handler (its `setState` capability is
attributed to the caller inside the Store; the executor theorems here observe
only the handler's outcome, so the context carries the data fields). -/
structure ActionCtx where
  state : Obj
  agentId : String
  agentLocation : BrowserLoc

/-- An `ActionDefinition`: synchronous optional validator (a throw is an
`Except.error` carrying the thrown message) and an async handler (a
rejection/throw likewise). -/
structure ActionDefM where
  validate : Option (List Value → Except String Unit)
  handler : ActionCtx → List Value → Except String Value

/-- What `ActionExecutor` reads from the config: the store name and the
optional `actions` map. -/
structure ExecCfg where
  name : String
  actions : Option (List (String × ActionDefM))

/-- `ActionExecutor.execute(actionName, args, agentInfo)`, with `snapshot` the
state returned by the injected `getState` when the context is built. -/
def executeAction (cfg : ExecCfg) (snapshot : Obj) (actionName : String) (args : List Value)
    (agentInfo : AgentInfoT) : Except CrannErr Value :=
  match cfg.actions with
  | none => Except.error (CrannErr.actionErr actionName cfg.name "No actions defined")
  | some acts =>
    match lookupAssoc acts actionName with
    | none => Except.error (CrannErr.actionErr actionName cfg.name "Unknown action")
    | some adef =>
      let validated : Except CrannErr Unit :=
        match adef.validate with
        | none => Except.ok ()
        | some vf =>
          match vf args with
          | Except.ok _ => Except.ok ()
          | Except.error msg => Except.error (CrannErr.validationErr actionName cfg.name msg)
      match validated with
      | Except.error e => Except.error e
      | Except.ok _ =>
        match adef.handler ⟨snapshot, agentInfo.id, agentInfo.location⟩ args with
        | Except.ok v => Except.ok v
        | Except.error msg => Except.error (CrannErr.actionErr actionName cfg.name msg)

-- =============================================================================
-- Callback delivery loops (Store.notifyStateChange vs Agent's loops)
-- =============================================================================

/-- The observable behaviour of one registered callback when invoked. -/
inductive CbRes where
  | ok
  | thrw (msg : String)
deriving DecidableEq, Repr

/-- `Store.notifyStateChange`'s local-listener loop:
`this.stateChangeListeners.forEach((listener) => listener(...))` with no
try/catch.  Returns how many listeners were invoked and the exception that
escaped to the caller, if one did (a throw aborts the `forEach`). -/
def storeListenersRun : List CbRes → Nat × Option String
  | [] => (0, none)
  | CbRes.ok :: rest =>
    let r := storeListenersRun rest
    (r.1 + 1, r.2)
  | CbRes.thrw m :: _ => (1, some m)

/-- The Agent's ready/disconnect/reconnect callback loops: `forEach` with a
try/catch around each invocation that logs the error.  Returns how many
callbacks were invoked and the logged messages, in order; the return type
carries no exception — nothing propagates. -/
def runCallbacksCaught : List CbRes → Nat × List String
  | [] => (0, [])
  | CbRes.ok :: rest =>
    let r := runCallbacksCaught rest
    (r.1 + 1, r.2)
  | CbRes.thrw m :: rest =>
    let r := runCallbacksCaught rest
    (r.1 + 1, m :: r.2)

/-- One entry of the Agent's `subscribers` set: the optional key filter and the
callback's behaviour when invoked. -/
structure SubscriberB where
  keys : Option (List String)
  res : CbRes
deriving DecidableEq, Repr

/-- The key-filter test inside `Agent.notifySubscribers`. -/
def subscriberMatches (changes : Obj) (sub : SubscriberB) : Bool :=
  match sub.keys with
  | none => true
  | some ks => ks.any (fun k => hasKey changes k)

/-- `Agent.notifySubscribers(changes)`: skip non-matching key-filtered
subscribers, invoke the rest, each under its own try/catch that logs.
Returns invocations and logged messages; nothing propagates. -/
def agentNotifySubscribersRun (changes : Obj) : List SubscriberB → Nat × List String
  | [] => (0, [])
  | sub :: rest =>
    let r := agentNotifySubscribersRun changes rest
    if subscriberMatches changes sub then
      match sub.res with
      | CbRes.ok => (r.1 + 1, r.2)
      | CbRes.thrw m => (r.1 + 1, m :: r.2)
    else r

-- =============================================================================
-- Agent (src/agent/Agent.ts)
-- =============================================================================

/-- The settlement state of one RPC promise. -/
inductive PromiseStatus where
  | pending
  | resolved (v : Value)
  | rejected (msg : String)
deriving DecidableEq, Repr

/-- The mutable fields of an `Agent` the claims observe.  Promises are modelled
by an append-only list: `pendingCalls` maps a correlation-id string to an index
into `promises` (the closure's `pendingCalls` map holds that promise's
`resolve`/`reject`). -/
structure AgentModel where
  stateCache : Obj
  agentInfo : Option AgentInfoT
  isConnected : Bool
  isDisconnected : Bool
  subscriberCount : Nat
  readyCbCount : Nat
  disconnectCbCount : Nat
  reconnectCbCount : Nat
  nextCallId : Nat
  pendingCalls : List (String × Nat)
  promises : List PromiseStatus
deriving DecidableEq, Repr

/-- A fresh agent: cache seeded with config defaults (every state item,
whatever its scope — `buildDefaultState` takes anything with a `default`),
counter at zero, nothing pending. -/
def agentInit (cfg : Config) : AgentModel :=
  { stateCache := cfg.items.map (fun p => (p.1, p.2.dflt)),
    agentInfo := none, isConnected := false, isDisconnected := false,
    subscriberCount := 0, readyCbCount := 0, disconnectCbCount := 0, reconnectCbCount := 0,
    nextCallId := 0, pendingCalls := [], promises := [] }

/-- The lifecycle error thrown by `assertNotDisconnected`. -/
def agentDisconnectedMsg (cfg : Config) : String :=
  "Agent for store " ++ cfg.name ++ " has been disconnected and cannot be used."

/-- The payload of an outgoing `rpc` message. -/
structure RpcPost where
  callId : String
  actionName : String
  args : List Value
deriving DecidableEq, Repr

/-- Calling `agent.actions.<name>(...args)`: the `actions` getter asserts the
lifecycle, then the proxy stub takes `` id = `${callId++}` ``, registers the
promise under `id` and posts the rpc request. -/
def agentCallRpc (cfg : Config) (m : AgentModel) (actionName : String) (args : List Value) :
    Except String (AgentModel × RpcPost) :=
  if m.isDisconnected then Except.error (agentDisconnectedMsg cfg)
  else
    let id := natRepr m.nextCallId
    Except.ok
      ({ m with nextCallId := m.nextCallId + 1,
                pendingCalls := setAssoc m.pendingCalls id m.promises.length,
                promises := m.promises ++ [PromiseStatus.pending] },
       ⟨id, actionName, args⟩)

/-- The payload of an incoming `rpcResult` message. -/
structure RpcResultMsg where
  callId : String
  success : Bool
  result : Value
  error : String
deriving DecidableEq, Repr

/-- The proxy's `rpcResult` handler: look the correlation id up in
`pendingCalls`; when found, delete it and settle that promise — resolve with
`result` on success, reject with the server-provided `error` otherwise. -/
def agentHandleRpcResult (m : AgentModel) (msg : RpcResultMsg) : AgentModel :=
  match lookupAssoc m.pendingCalls msg.callId with
  | none => m
  | some pid =>
    { m with pendingCalls := removeAssoc m.pendingCalls msg.callId,
             promises := m.promises.set pid
               (if msg.success then PromiseStatus.resolved msg.result
                else PromiseStatus.rejected msg.error) }

/-- The porter-level disconnect event handler wired in `setupMessageHandlers`:
drops `_isConnected` and fires the disconnect callbacks (each caught); the
pending RPC bookkeeping is not touched. -/
def agentPorterDisconnectEvt (m : AgentModel) : AgentModel :=
  { m with isConnected := false }

/-- `Agent.disconnect()`: early-returns when already disconnected, else flips
the lifecycle flags and clears the four callback sets; the proxy closure's
`pendingCalls` map is not reachable from here and is not touched. -/
def agentDisconnect (m : AgentModel) : AgentModel :=
  if m.isDisconnected then m
  else
    { m with isDisconnected := true, isConnected := false,
             subscriberCount := 0, readyCbCount := 0,
             disconnectCbCount := 0, reconnectCbCount := 0 }

/-- `Agent.ready()` (the returned promise is not itself modelled; the lifecycle
gate is). -/
def agentReady (cfg : Config) (m : AgentModel) : Except String Unit :=
  if m.isDisconnected then Except.error (agentDisconnectedMsg cfg)
  else Except.ok ()

/-- `Agent.onReady(cb)`. -/
def agentOnReady (cfg : Config) (m : AgentModel) : Except String AgentModel :=
  if m.isDisconnected then Except.error (agentDisconnectedMsg cfg)
  else Except.ok { m with readyCbCount := m.readyCbCount + 1 }

/-- `Agent.getState()`. -/
def agentGetState (cfg : Config) (m : AgentModel) : Except String Obj :=
  if m.isDisconnected then Except.error (agentDisconnectedMsg cfg)
  else Except.ok m.stateCache

/-- `Agent.setState(state)`: optimistic local merge, then a `setState` post. -/
def agentSetState (cfg : Config) (m : AgentModel) (stateArg : Obj) :
    Except String (AgentModel × Obj) :=
  if m.isDisconnected then Except.error (agentDisconnectedMsg cfg)
  else Except.ok ({ m with stateCache := mergeObj m.stateCache stateArg }, stateArg)

/-- `Agent.subscribe(...)`. -/
def agentSubscribe (cfg : Config) (m : AgentModel) : Except String AgentModel :=
  if m.isDisconnected then Except.error (agentDisconnectedMsg cfg)
  else Except.ok { m with subscriberCount := m.subscriberCount + 1 }

/-- `Agent.onDisconnect(cb)`. -/
def agentOnDisconnect (cfg : Config) (m : AgentModel) : Except String AgentModel :=
  if m.isDisconnected then Except.error (agentDisconnectedMsg cfg)
  else Except.ok { m with disconnectCbCount := m.disconnectCbCount + 1 }

/-- `Agent.onReconnect(cb)`. -/
def agentOnReconnect (cfg : Config) (m : AgentModel) : Except String AgentModel :=
  if m.isDisconnected then Except.error (agentDisconnectedMsg cfg)
  else Except.ok { m with reconnectCbCount := m.reconnectCbCount + 1 }

/-- The `actions` property getter (it runs `assertNotDisconnected` before
handing out the proxy). -/
def agentActionsGetter (cfg : Config) (m : AgentModel) : Except String Unit :=
  if m.isDisconnected then Except.error (agentDisconnectedMsg cfg)
  else Except.ok ()

/-- `Agent.getInfo()`: returns `null` before the handshake, else the
server-provided identity; the source has no lifecycle assertion here. -/
def agentGetInfo (_cfg : Config) (m : AgentModel) : Except String (Option AgentInfoT) :=
  Except.ok m.agentInfo

-- =============================================================================
-- Aliasing model for the defensive copies (`{...this.sharedState}`)
-- =============================================================================

/-- A heap of JS objects addressed by reference. -/
structure Heap where
  objs : List (Nat × Obj)
  nextRef : Nat
deriving DecidableEq, Repr

/-- Object references live in the heap domain. -/
def heapWF (h : Heap) : Prop :=
  ∀ p ∈ h.objs, p.1 < h.nextRef

/-- Allocate a fresh object. -/
def heapAlloc (h : Heap) (o : Obj) : Nat × Heap :=
  (h.nextRef, ⟨h.objs ++ [(h.nextRef, o)], h.nextRef + 1⟩)

/-- Dereference. -/
def heapGet (h : Heap) (r : Nat) : Option Obj :=
  lookupAssoc h.objs r

/-- In-place mutation of the object behind a reference. -/
def heapSet (h : Heap) (r : Nat) (o : Obj) : Heap :=
  ⟨h.objs.map (fun p => if p.1 == r then (r, o) else p), h.nextRef⟩

/-- `getSharedState()` with aliasing visible: the manager's own object sits
behind `sharedRef`; the method returns a freshly allocated spread copy. -/
def mgrGetSharedStateHeap (h : Heap) (sharedRef : Nat) : Nat × Heap :=
  heapAlloc h ((heapGet h sharedRef).getD [])

/-- `getAgentState(agentId)` with aliasing visible:
`return this.agentStates.get(agentId) ?? { ...this.defaultAgentState }` — the
spread sits only on the default branch, so an id with a stored entry gets the
reference held in `this.agentStates` itself, and only an id without one gets a
freshly allocated copy of the defaults.  `agentRefs` maps agent ids to the
references held in `this.agentStates`. -/
def mgrGetAgentStateHeap (cfg : Config) (h : Heap) (agentRefs : List (String × Nat))
    (agentId : String) : Nat × Heap :=
  match lookupAssoc agentRefs agentId with
  | some r => (r, h)
  | none => heapAlloc h (buildDefaultAgentState cfg)

/-- Key classification used to state the routing theorems: `k` is a configured
shared-scope key. -/
def isSharedKey (cfg : Config) (k : String) : Bool :=
  match lookupItem cfg k with
  | some it => !(it.scope = some ScopeT.Agent)
  | none => false

/-- Key classification used to state the routing theorems: `k` is a configured
agent-scope key. -/
def isAgentKey (cfg : Config) (k : String) : Bool :=
  match lookupItem cfg k with
  | some it => it.scope = some ScopeT.Agent
  | none => false

/-- A concrete validator used to evaluate the executor theorems: throws
`"negative"` on a negative argument (the spec's gating example). -/
def demoValidate : List Value → Except String Unit := fun args =>
  match args with
  | [Value.vInt n] => if n < 0 then Except.error "negative" else Except.ok ()
  | _ => Except.error "bad args"

/-- A concrete handler used to evaluate the executor theorems. -/
def demoHandler : ActionCtx → List Value → Except String Value := fun _ args =>
  match args with
  | [Value.vInt n] => Except.ok (Value.vInt (2 * n))
  | _ => Except.error "bad args"

/-- The concrete `double` action. -/
def demoDouble : ActionDefM := ⟨some demoValidate, demoHandler⟩

/-- A concrete actions map with the single `double` action. -/
def demoActions : List (String × ActionDefM) := [("double", demoDouble)]

/-- A small concrete configuration used to evaluate theorems at concrete
inputs: one plain shared key, one agent-scoped key, one durable shared key. -/
def cfgDemo : Config :=
  ⟨"demo", 1,
   [("s", ⟨Value.vInt 0, none, none⟩),
    ("a", ⟨Value.vInt 1, some ScopeT.Agent, none⟩),
    ("count", ⟨Value.vInt 0, none, some PersistT.Local⟩)]⟩

-- =============================================================================
-- Theorems.  First, library lemmas about the embedding's building blocks.
-- =============================================================================

theorem decVal_append_last (a : List Char) (c : Char) :
    decVal (a ++ [c]) = 10 * decVal a + (c.toNat - 48) := by
  simp [decVal, List.foldl_append]

theorem digChar_toNat (d : Nat) (hd : d < 10) : (digChar d).toNat = 48 + d := by
  interval_cases d <;> decide

theorem decVal_natReprGo : ∀ (fuel n : Nat), n ≤ fuel → decVal (natReprGo fuel n) = n := by
  intro fuel
  induction fuel with
  | zero =>
    intro n hn
    interval_cases n
    simp [natReprGo, decVal]
  | succ fuel ih =>
    intro n hn
    match n with
    | 0 => simp [natReprGo, decVal]
    | m + 1 =>
      have hdiv : (m + 1) / 10 ≤ fuel := by
        have h1 : (m + 1) / 10 < m + 1 := Nat.div_lt_self (Nat.succ_pos m) (by norm_num)
        omega
      rw [natReprGo, decVal_append_last, ih ((m + 1) / 10) hdiv,
        digChar_toNat ((m + 1) % 10) (Nat.mod_lt _ (by norm_num))]
      omega

theorem decVal_natRepr (n : Nat) : decVal (natRepr n).data = n := by
  by_cases h : n = 0
  · subst h; decide
  · rw [natRepr, if_neg h]
    exact decVal_natReprGo n n (Nat.le_refl n)

theorem natRepr_injective {m n : Nat} (h : natRepr m = natRepr n) : m = n := by
  have := congrArg (fun s => decVal s.data) h
  simpa [decVal_natRepr] using this

theorem natReprGo_digits :
    ∀ (fuel n : Nat), ∀ c ∈ natReprGo fuel n, ∃ d, d < 10 ∧ c = digChar d := by
  intro fuel
  induction fuel with
  | zero => simp [natReprGo]
  | succ fuel ih =>
    intro n c hc
    match n with
    | 0 => simp [natReprGo] at hc
    | m + 1 =>
      rw [natReprGo] at hc
      rcases List.mem_append.mp hc with hc | hc
      · exact ih ((m + 1) / 10) c hc
      · rcases List.mem_singleton.mp hc with rfl
        exact ⟨(m + 1) % 10, Nat.mod_lt _ (by norm_num), rfl⟩

theorem colon_not_mem_natRepr (n : Nat) : ':' ∉ (natRepr n).data := by
  by_cases h : n = 0
  · subst h; decide
  · rw [natRepr, if_neg h]
    intro hmem
    rcases natReprGo_digits n n ':' hmem with ⟨d, hd, hc⟩
    have := congrArg Char.toNat hc
    rw [digChar_toNat d hd] at this
    have : (58 : Nat) = 48 + d := this
    omega

theorem splitFirstColon :
    ∀ (a₁ a₂ b₁ b₂ : List Char), ':' ∉ a₁ → ':' ∉ a₂ →
      a₁ ++ ':' :: b₁ = a₂ ++ ':' :: b₂ → a₁ = a₂ ∧ b₁ = b₂ := by
  intro a₁
  induction a₁ with
  | nil =>
    intro a₂ b₁ b₂ _ h₂ heq
    cases a₂ with
    | nil => simpa using heq
    | cons c t =>
      simp only [List.nil_append, List.cons_append, List.cons.injEq] at heq
      exact absurd (heq.1 ▸ List.mem_cons_self c t) h₂
  | cons c t ih =>
    intro a₂ b₁ b₂ h₁ h₂ heq
    cases a₂ with
    | nil =>
      simp only [List.nil_append, List.cons_append, List.cons.injEq] at heq
      exact absurd (heq.1.symm ▸ List.mem_cons_self c t) h₁
    | cons c' t' =>
      simp only [List.cons_append, List.cons.injEq] at heq
      obtain ⟨rfl, heq⟩ := heq
      have ht := ih t' b₁ b₂ (fun hm => h₁ (List.mem_cons_of_mem _ hm))
        (fun hm => h₂ (List.mem_cons_of_mem _ hm)) heq
      exact ⟨by rw [ht.1], ht.2⟩

theorem nameOk_no_colon {s : String} (h : nameOk s = true) : ':' ∉ s.data := by
  unfold nameOk at h
  cases hd : s.data with
  | nil => rw [hd] at h; exact absurd h (by simp)
  | cons c cs =>
    rw [hd] at h
    simp only [Bool.and_eq_true] at h
    intro hmem
    rcases List.mem_cons.mp hmem with hc | hmem
    · rw [← hc] at h
      exact absurd h.1 (by decide)
    · have := (List.all_eq_true.mp h.2) ':' hmem
      exact absurd this (by decide)

theorem buildKey_data (cfg : Config) (k : String) :
    (buildKey cfg k).data =
      'c' :: 'r' :: 'a' :: 'n' :: 'n' :: ':' ::
        (cfg.name.data ++ ':' :: 'v' :: ((natRepr cfg.version).data ++ ':' :: k.data)) := by
  show ("crann:" ++ cfg.name ++ ":v" ++ natRepr cfg.version ++ ":" ++ k).data = _
  simp [String.data_append]

theorem getMetaKey_data (cfg : Config) :
    (getMetaKey cfg).data =
      'c' :: 'r' :: 'a' :: 'n' :: 'n' :: ':' ::
        (cfg.name.data ++ ':' :: '_' :: '_' :: 'm' :: 'e' :: 't' :: 'a' :: []) := by
  show ("crann:" ++ cfg.name ++ ":__meta").data = _
  simp [String.data_append]

/-- The persisted-value key layout separates stores: two `buildKey` results can
only coincide when name, version and state key all coincide, provided both
names pass `createConfig`'s `^[a-zA-Z][a-zA-Z0-9_-]*$` check. -/
theorem buildKey_inj {cfg₁ cfg₂ : Config} {k₁ k₂ : String}
    (h₁ : nameOk cfg₁.name = true) (h₂ : nameOk cfg₂.name = true)
    (h : buildKey cfg₁ k₁ = buildKey cfg₂ k₂) :
    cfg₁.name = cfg₂.name ∧ cfg₁.version = cfg₂.version ∧ k₁ = k₂ := by
  have hdata := congrArg String.data h
  rw [buildKey_data, buildKey_data] at hdata
  simp only [List.cons.injEq, true_and] at hdata
  have hsplit := splitFirstColon cfg₁.name.data cfg₂.name.data _ _
    (nameOk_no_colon h₁) (nameOk_no_colon h₂) hdata
  have hname : cfg₁.name = cfg₂.name := String.ext hsplit.1
  have htail := hsplit.2
  simp only [List.cons.injEq, true_and] at htail
  have hsplit₂ := splitFirstColon (natRepr cfg₁.version).data (natRepr cfg₂.version).data _ _
    (colon_not_mem_natRepr _) (colon_not_mem_natRepr _) htail
  have hver : cfg₁.version = cfg₂.version := natRepr_injective (String.ext hsplit₂.1)
  exact ⟨hname, hver, String.ext hsplit₂.2⟩

/-- A persisted-value key is never a metadata key (for regex-valid names). -/
theorem buildKey_ne_metaKey {cfg₁ cfg₂ : Config} {k : String}
    (h₁ : nameOk cfg₁.name = true) (h₂ : nameOk cfg₂.name = true) :
    buildKey cfg₁ k ≠ getMetaKey cfg₂ := by
  intro h
  have hdata := congrArg String.data h
  rw [buildKey_data, getMetaKey_data] at hdata
  simp only [List.cons.injEq, true_and] at hdata
  have hsplit := splitFirstColon cfg₁.name.data cfg₂.name.data _ _
    (nameOk_no_colon h₁) (nameOk_no_colon h₂) hdata
  have := hsplit.2
  simp at this

theorem getObj_nil (k : String) : getObj [] k = none := rfl

theorem getObj_cons (p : String × Value) (o : Obj) (k : String) :
    getObj (p :: o) k = if p.1 == k then some p.2 else getObj o k := by
  by_cases h : p.1 == k
  · simp [getObj, List.find?_cons_of_pos, h]
  · simp only [Bool.not_eq_true] at h
    simp [getObj, List.find?_cons_of_neg, h]

theorem hasKey_nil (k : String) : hasKey [] k = false := rfl

theorem hasKey_cons (p : String × Value) (o : Obj) (k : String) :
    hasKey (p :: o) k = (p.1 == k || hasKey o k) := by
  simp [hasKey, List.any_cons]

theorem hasKey_eq_isSome (o : Obj) (k : String) : hasKey o k = (getObj o k).isSome := by
  induction o with
  | nil => rfl
  | cons p o ih =>
    rw [hasKey_cons, getObj_cons, ih]
    by_cases h : p.1 == k <;> simp [h]

theorem mergeObj_nil_left (b : Obj) : mergeObj [] b = b := by
  simp [mergeObj, hasKey_nil]

theorem mergeObj_nil_right (a : Obj) : mergeObj a [] = a := by
  have : ∀ p : String × Value,
      (match getObj [] p.1 with | some v => (p.1, v) | none => p) = p := by
    intro p; rfl
  simp [mergeObj, this]

theorem getObj_append (x y : Obj) (k : String) :
    getObj (x ++ y) k = match getObj x k with
      | some v => some v
      | none => getObj y k := by
  induction x with
  | nil => simp [getObj_nil]
  | cons p x ih =>
    rw [List.cons_append, getObj_cons, getObj_cons]
    by_cases h : p.1 == k <;> simp [h, ih]

theorem getObj_map_merge (a b : Obj) (k : String) :
    getObj (a.map (fun p => match getObj b p.1 with | some v => (p.1, v) | none => p)) k
      = match getObj a k with
        | some v => (match getObj b k with | some w => some w | none => some v)
        | none => none := by
  induction a with
  | nil => simp [getObj_nil]
  | cons p a ih =>
    rw [List.map_cons, getObj_cons, getObj_cons]
    have hkey : (match getObj b p.1 with | some v => (p.1, v) | none => p).1 = p.1 := by
      cases h : getObj b p.1 <;> simp
    rw [hkey]
    by_cases h : p.1 == k
    · have hk : p.1 = k := eq_of_beq h
      subst hk
      cases hb : getObj b p.1 <;> simp [h, hb]
    · simp [h, ih]

theorem getObj_filter_of_not_hasKey (a b : Obj) (k : String) (hk : hasKey a k = false) :
    getObj (b.filter (fun p => !hasKey a p.1)) k = getObj b k := by
  induction b with
  | nil => simp
  | cons q b ih =>
    rw [getObj_cons]
    by_cases h : q.1 == k
    · have : q.1 = k := eq_of_beq h
      rw [List.filter_cons, this, hk]
      simp only [Bool.not_false, if_pos]
      rw [getObj_cons, this]
      simp [h]
    · rw [List.filter_cons]
      by_cases hq : hasKey a q.1
      · simp only [hq, Bool.not_true]
        simpa [h] using ih
      · simp only [Bool.not_eq_true] at hq
        simp only [hq, Bool.not_false, if_pos]
        rw [getObj_cons]
        simp [h, ih]

theorem getObj_filter_of_hasKey (a b : Obj) (k : String) (hk : hasKey a k = true) :
    getObj (b.filter (fun p => !hasKey a p.1)) k = none := by
  induction b with
  | nil => simp [getObj_nil]
  | cons q b ih =>
    rw [List.filter_cons]
    by_cases hq : hasKey a q.1
    · simp only [hq, Bool.not_true]
      simpa using ih
    · simp only [Bool.not_eq_true] at hq
      simp only [hq, Bool.not_false, if_pos]
      rw [getObj_cons]
      have : (q.1 == k) = false := by
        by_contra hcontra
        simp only [Bool.not_eq_false] at hcontra
        have : q.1 = k := eq_of_beq hcontra
        rw [this] at hq
        rw [hq] at hk
        exact Bool.false_ne_true hk
      simp [this, ih]

/-- Lookup after object spread: the right (later) operand wins. -/
theorem getObj_mergeObj (a b : Obj) (k : String) :
    getObj (mergeObj a b) k = match getObj a k with
      | some v => (match getObj b k with | some w => some w | none => some v)
      | none => getObj b k := by
  unfold mergeObj
  rw [getObj_append, getObj_map_merge]
  cases ha : getObj a k with
  | some v =>
    have hk : hasKey a k = true := by rw [hasKey_eq_isSome, ha]; rfl
    cases hb : getObj b k <;> simp
  | none =>
    have hk : hasKey a k = false := by rw [hasKey_eq_isSome, ha]; rfl
    simp [getObj_filter_of_not_hasKey a b k hk]

theorem lookupAssoc_nil {κ α : Type} [BEq κ] (k : κ) :
    lookupAssoc ([] : List (κ × α)) k = none := rfl

theorem lookupAssoc_cons {κ α : Type} [BEq κ] (p : κ × α) (m : List (κ × α)) (k : κ) :
    lookupAssoc (p :: m) k = if p.1 == k then some p.2 else lookupAssoc m k := by
  by_cases h : p.1 == k
  · simp [lookupAssoc, List.find?_cons_of_pos, h]
  · simp only [Bool.not_eq_true] at h
    simp [lookupAssoc, List.find?_cons_of_neg, h]

theorem lookupAssoc_append {κ α : Type} [BEq κ] (x y : List (κ × α)) (k : κ) :
    lookupAssoc (x ++ y) k = match lookupAssoc x k with
      | some v => some v
      | none => lookupAssoc y k := by
  induction x with
  | nil => simp [lookupAssoc_nil]
  | cons p x ih =>
    rw [List.cons_append, lookupAssoc_cons, lookupAssoc_cons]
    by_cases h : p.1 == k <;> simp [h, ih]

theorem lookupAssoc_mapSet {κ α : Type} [BEq κ] [LawfulBEq κ]
    (m : List (κ × α)) (k : κ) (v : α) :
    lookupAssoc (m.map (fun p => if p.1 == k then (k, v) else p)) k
      = (lookupAssoc m k).map (fun _ => v) := by
  induction m with
  | nil => simp [lookupAssoc_nil]
  | cons p m ih =>
    rw [List.map_cons, lookupAssoc_cons]
    by_cases h : p.1 == k
    · simp only [h, if_pos]
      rw [lookupAssoc_cons]
      simp [h]
    · simp only [h, Bool.false_eq_true, if_neg, not_false_iff]
      rw [lookupAssoc_cons]
      simp [h, ih]

theorem lookupAssoc_mapSet_ne {κ α : Type} [BEq κ] [LawfulBEq κ]
    (m : List (κ × α)) (k k' : κ) (v : α) (hne : k ≠ k') :
    lookupAssoc (m.map (fun p => if p.1 == k then (k, v) else p)) k'
      = lookupAssoc m k' := by
  induction m with
  | nil => simp
  | cons p m ih =>
    rw [List.map_cons, lookupAssoc_cons]
    by_cases h : p.1 == k
    · have hp : p.1 = k := eq_of_beq h
      have h1 : (k == k') = false := beq_eq_false_iff_ne.mpr hne
      simp only [h, if_pos]
      rw [lookupAssoc_cons]
      simp only [h1, Bool.false_eq_true, if_neg, not_false_iff]
      rw [hp] at *
      simp [h1, ih]
    · simp only [h, Bool.false_eq_true, if_neg, not_false_iff]
      rw [lookupAssoc_cons, ih]

theorem lookupAssoc_eq_none_of_any_eq_false {κ α : Type} [BEq κ]
    (m : List (κ × α)) (k : κ) (h : m.any (fun p => p.1 == k) = false) :
    lookupAssoc m k = none := by
  induction m with
  | nil => rfl
  | cons p m ih =>
    rw [List.any_cons, Bool.or_eq_false_iff] at h
    rw [lookupAssoc_cons]
    simp [h.1, ih h.2]

theorem lookupAssoc_isSome_of_any {κ α : Type} [BEq κ] (m : List (κ × α)) (k : κ)
    (h : m.any (fun p => p.1 == k) = true) : (lookupAssoc m k).isSome := by
  induction m with
  | nil => simp at h
  | cons p m ih =>
    rw [List.any_cons, Bool.or_eq_true] at h
    rw [lookupAssoc_cons]
    by_cases hp : p.1 == k
    · simp [hp]
    · rcases h with h | h
      · exact absurd h hp
      · simp [hp, ih h]

theorem lookupAssoc_setAssoc_self {κ α : Type} [BEq κ] [LawfulBEq κ]
    (m : List (κ × α)) (k : κ) (v : α) :
    lookupAssoc (setAssoc m k v) k = some v := by
  unfold setAssoc
  by_cases hany : m.any (fun p => p.1 == k)
  · rw [if_pos hany, lookupAssoc_mapSet]
    have hs := lookupAssoc_isSome_of_any m k hany
    cases hl : lookupAssoc m k with
    | some w => simp
    | none => rw [hl] at hs; exact absurd hs (by simp)
  · rw [if_neg hany, lookupAssoc_append]
    simp only [Bool.not_eq_true] at hany
    rw [lookupAssoc_eq_none_of_any_eq_false m k hany]
    rw [lookupAssoc_cons]
    simp

theorem lookupAssoc_setAssoc_ne {κ α : Type} [BEq κ] [LawfulBEq κ]
    (m : List (κ × α)) (k k' : κ) (v : α) (hne : k ≠ k') :
    lookupAssoc (setAssoc m k v) k' = lookupAssoc m k' := by
  unfold setAssoc
  by_cases hany : m.any (fun p => p.1 == k)
  · rw [if_pos hany, lookupAssoc_mapSet_ne m k k' v hne]
  · rw [if_neg hany, lookupAssoc_append]
    cases hl : lookupAssoc m k' with
    | some w => simp
    | none =>
      rw [lookupAssoc_cons]
      simp [beq_eq_false_iff_ne.mpr hne, lookupAssoc_nil]

theorem lookupAssoc_removeAssoc_self {κ α : Type} [BEq κ] (m : List (κ × α)) (k : κ) :
    lookupAssoc (removeAssoc m k) k = none := by
  induction m with
  | nil => rfl
  | cons p m ih =>
    unfold removeAssoc at *
    rw [List.filter_cons]
    by_cases h : p.1 == k
    · simp only [h, Bool.not_true, Bool.false_eq_true, if_neg, not_false_iff]
      exact ih
    · simp only [h, Bool.not_false, if_pos]
      rw [lookupAssoc_cons]
      simp [h, ih]

theorem lookupAssoc_removeAssoc_ne {κ α : Type} [BEq κ] [LawfulBEq κ]
    (m : List (κ × α)) (k k' : κ) (hne : k ≠ k') :
    lookupAssoc (removeAssoc m k) k' = lookupAssoc m k' := by
  induction m with
  | nil => rfl
  | cons p m ih =>
    unfold removeAssoc at *
    rw [List.filter_cons]
    by_cases h : p.1 == k
    · simp only [h, Bool.not_true, Bool.false_eq_true, if_neg, not_false_iff]
      rw [lookupAssoc_cons]
      have hpk : (p.1 == k') = false := by
        have : p.1 = k := eq_of_beq h
        rw [this]
        exact beq_eq_false_iff_ne.mpr hne
      rw [ih, hpk]
      simp
    · simp only [h, Bool.not_false, if_pos]
      rw [lookupAssoc_cons, lookupAssoc_cons, ih]

/-- C9: when the same persisted storage key exists in both the durable (local)
tier and the session tier at hydration time, `Persistence.hydrate()` returns
the session tier's value: `{...local, ...session}` lets the session tier win
for every conflicting key. -/
theorem crann_c9_session_precedence (cfg : Config) (st : Storages) (k : String)
    (it : StateItem) (vL vS : Value)
    (hmem : (k, it) ∈ cfg.items)
    (hscope : ¬it.scope = some ScopeT.Agent)
    (hp : it.persist = some PersistT.Local ∨ it.persist = some PersistT.Session)
    (hL : getObj st.localStore (buildKey cfg k) = some vL)
    (hS : getObj st.sessionStore (buildKey cfg k) = some vS) :
    (k, vS) ∈ hydrate cfg st := by
  unfold hydrate
  refine List.mem_filterMap.mpr ⟨(k, it), hmem, ?_⟩
  have hcomb : getObj (mergeObj st.localStore st.sessionStore) (buildKey cfg k) = some vS := by
    rw [getObj_mergeObj, hL, hS]
  rcases hp with hp | hp <;> simp [hscope, hp, hcomb]

/-- C9 witness: a concrete conflicting key, hydrated from session. -/
theorem crann_c9_witness :
    ("count", Value.vInt 2) ∈
      hydrate ⟨"t", 1, [("count", ⟨Value.vInt 0, none, some PersistT.Local⟩)]⟩
        ⟨[(buildKey ⟨"t", 1, [("count", ⟨Value.vInt 0, none, some PersistT.Local⟩)]⟩ "count",
            Value.vInt 1)],
         [(buildKey ⟨"t", 1, [("count", ⟨Value.vInt 0, none, some PersistT.Local⟩)]⟩ "count",
            Value.vInt 2)]⟩ := by
  apply crann_c9_session_precedence _ _ _ ⟨Value.vInt 0, none, some PersistT.Local⟩
    (Value.vInt 1) (Value.vInt 2)
  · simp
  · decide
  · left; rfl
  · simp [getObj_cons]
  · simp [getObj_cons]

/-- C5 counterexample: the claim covers Store local subscriber listeners, but
`Store.notifyStateChange` runs its `forEach` with no try/catch: with two
registered listeners of which the first throws, only one listener is invoked
and the exception escapes to the caller of the notifying operation. -/
theorem crann_c5_counterexample :
    storeListenersRun [CbRes.thrw "boom", CbRes.ok] = (1, some "boom") := rfl

/-- C5 (amended): on the Agent side every callback loop (subscribers with
their key filters, and the ready/disconnect/reconnect sets) catches a throwing
callback, logs its message, propagates nothing (the return type carries no
exception), and still invokes every other (matching) callback. -/
theorem crann_c5_agent_callbacks_caught (changes : Obj) (subs : List SubscriberB)
    (cbs : List CbRes) :
    (agentNotifySubscribersRun changes subs).1
        = (subs.filter (subscriberMatches changes)).length ∧
    (agentNotifySubscribersRun changes subs).2
        = (subs.filter (subscriberMatches changes)).filterMap
            (fun s => match s.res with | CbRes.ok => none | CbRes.thrw m => some m) ∧
    (runCallbacksCaught cbs).1 = cbs.length ∧
    (runCallbacksCaught cbs).2
        = cbs.filterMap (fun r => match r with | CbRes.ok => none | CbRes.thrw m => some m) := by
  refine ⟨?_, ?_, ?_, ?_⟩
  · induction subs with
    | nil => rfl
    | cons s subs ih =>
      rw [agentNotifySubscribersRun, List.filter_cons]
      by_cases hm : subscriberMatches changes s
      · cases hr : s.res <;> simp [hm, ih]
      · simp only [Bool.not_eq_true] at hm
        simp [hm, ih]
  · induction subs with
    | nil => rfl
    | cons s subs ih =>
      rw [agentNotifySubscribersRun, List.filter_cons]
      by_cases hm : subscriberMatches changes s
      · cases hr : s.res <;> simp [hm, hr, ih]
      · simp only [Bool.not_eq_true] at hm
        simp [hm, ih]
  · induction cbs with
    | nil => rfl
    | cons c cbs ih => cases c <;> simp [runCallbacksCaught, ih]
  · induction cbs with
    | nil => rfl
    | cons c cbs ih => cases c <;> simp [runCallbacksCaught, ih]

/-- C3: every RPC call through the actions proxy gets the correlation id
`${callId++}` — the counter increases by one per call, so ids are distinct —
and delivering the two responses of `foo(); bar()` in reverse order settles
each promise with its own response: `bar`'s `success:false` response rejects
`bar`'s promise with the server-provided message, `foo`'s success response
resolves `foo`'s promise with its result, and the pending map is drained. -/
theorem crann_c3_rpc_correlation (cfg : Config) (fooName barName : String)
    (fooArgs barArgs : List Value) (v : Value) (e : String) :
    (∀ (m : AgentModel) (nm : String) (ar : List Value) (m' : AgentModel) (p : RpcPost),
        agentCallRpc cfg m nm ar = Except.ok (m', p) →
        p.callId = natRepr m.nextCallId ∧ m'.nextCallId = m.nextCallId + 1) ∧
    (∃ m₁ m₂ : AgentModel, ∃ p₁ p₂ : RpcPost,
      agentCallRpc cfg (agentInit cfg) fooName fooArgs = Except.ok (m₁, p₁) ∧
      agentCallRpc cfg m₁ barName barArgs = Except.ok (m₂, p₂) ∧
      p₁.callId ≠ p₂.callId ∧
      m₁.nextCallId < m₂.nextCallId ∧
      (agentHandleRpcResult (agentHandleRpcResult m₂ ⟨p₂.callId, false, Value.vNull, e⟩)
          ⟨p₁.callId, true, v, e⟩).promises
        = [PromiseStatus.resolved v, PromiseStatus.rejected e] ∧
      (agentHandleRpcResult (agentHandleRpcResult m₂ ⟨p₂.callId, false, Value.vNull, e⟩)
          ⟨p₁.callId, true, v, e⟩).pendingCalls = []) := by
  constructor
  · intro m nm ar m' p h
    unfold agentCallRpc at h
    by_cases hd : m.isDisconnected
    · rw [if_pos hd] at h
      exact absurd h (by simp)
    · rw [if_neg hd] at h
      simp only [Except.ok.injEq, Prod.mk.injEq] at h
      obtain ⟨hm, hp⟩ := h
      constructor
      · rw [← hp]
      · rw [← hm]
  · refine ⟨_, _, _, _, rfl, rfl, ?_, ?_, ?_, ?_⟩
    · intro h
      have : (0 : Nat) = 0 + 1 := natRepr_injective h
      exact absurd this (by decide)
    · exact Nat.lt_succ_self _
    · rfl
    · rfl

/-- C4 evaluated at the failing input (code bug): after issuing one RPC call
from a fresh agent, running the transport-level disconnect event and then
`Agent.disconnect()` leaves the pending-call map still holding the
correlation id and the promise still pending — nothing rejects it. -/
theorem crann_c4_pending_not_drained (cfg : Config) (fooName : String) (fooArgs : List Value) :
    ∃ m₁ : AgentModel, ∃ p₁ : RpcPost,
      agentCallRpc cfg (agentInit cfg) fooName fooArgs = Except.ok (m₁, p₁) ∧
      (agentDisconnect (agentPorterDisconnectEvt m₁)).isDisconnected = true ∧
      (agentDisconnect (agentPorterDisconnectEvt m₁)).pendingCalls = [(p₁.callId, 0)] ∧
      (agentDisconnect (agentPorterDisconnectEvt m₁)).promises = [PromiseStatus.pending] := by
  refine ⟨_, _, rfl, rfl, rfl, rfl⟩

/-- C1 evaluated at the failing input (code bug): config `{name:"t", version:1,
count:{default:0, persist:"local"}}`, one registered agent, one local
subscriber, shared state at its default `0`.  `Store.setState({count: 0})`
with the current (deep-equal) value leaves the manager state unchanged — but
`persistence.persist({count: 0})` is still called, a durable-tier storage
write still happens, the local subscriber is still notified and a
`stateUpdate` transport post still goes out: the deep-equality check guards
only the internal reassignment, not persistence or notification. -/
theorem crann_c1_noop_not_honoured :
    ∃ s1 : StoreModel, ∃ eff : SetStateEffects,
      storeSetState ⟨"t", 1, [("count", ⟨Value.vInt 0, none, some PersistT.Local⟩)]⟩
          { storeInit ⟨"t", 1, [("count", ⟨Value.vInt 0, none, some PersistT.Local⟩)]⟩ with
              registry := ["a1"], listenerCount := 1 }
          [("count", Value.vInt 0)] none
        = Except.ok (s1, eff) ∧
      s1.mgr = mgrInit ⟨"t", 1, [("count", ⟨Value.vInt 0, none, some PersistT.Local⟩)]⟩ ∧
      eff.persistArg = some [("count", Value.vInt 0)] ∧
      eff.localSetCalled = true ∧
      eff.notify.listenerDeliveries = 1 ∧
      eff.notify.posts = ["a1"] := by
  refine ⟨_, _, rfl, ?_, ?_, ?_, ?_, ?_⟩ <;> decide

/-- The key-routing loop of `StateManager.setState`, characterized: shared
changes are exactly the input entries whose key is configured with shared
scope; agent changes are exactly the agent-scoped configured entries when a
connection id is present and empty otherwise; unknown keys land in neither. -/
theorem routeChanges_spec (cfg : Config) (agentId : Option String) (l : Obj) :
    routeChanges cfg agentId l =
      (l.filter (fun p => isSharedKey cfg p.1),
       match agentId with
       | some _ => l.filter (fun p => isAgentKey cfg p.1)
       | none => []) := by
  induction l with
  | nil => cases agentId <;> rfl
  | cons p l ih =>
    rw [routeChanges, ih]
    cases agentId with
    | none =>
      simp only [List.filter_cons]
      cases hit : lookupItem cfg p.1 with
      | none => simp [isSharedKey, isAgentKey, hit]
      | some it =>
        by_cases hs : it.scope = some ScopeT.Agent
        · simp [isSharedKey, isAgentKey, hit, hs, Option.isSome]
        · simp [isSharedKey, isAgentKey, hit, hs, Option.isSome]
    | some aid =>
      simp only [List.filter_cons]
      cases hit : lookupItem cfg p.1 with
      | none => simp [isSharedKey, isAgentKey, hit]
      | some it =>
        by_cases hs : it.scope = some ScopeT.Agent
        · simp [isSharedKey, isAgentKey, hit, hs, Option.isSome]
        · simp [isSharedKey, isAgentKey, hit, hs, Option.isSome]

theorem deepEqual_eq {a b : Obj} (h : deepEqual a b = true) : a = b := by
  unfold deepEqual at h
  exact eq_of_beq h

theorem smSetState_changes (cfg : Config) (ms : ManagerState) (stateArg : Obj)
    (agentId : Option String) :
    (smSetState cfg ms stateArg agentId).2 =
      (stateArg.filter (fun p => isSharedKey cfg p.1),
       match agentId with
       | some _ => stateArg.filter (fun p => isAgentKey cfg p.1)
       | none => []) := by
  simp only [smSetState, routeChanges_spec]

theorem smSetState_state_spec (cfg : Config) (ms : ManagerState) (stateArg : Obj)
    (agentId : Option String) :
    (smSetState cfg ms stateArg agentId).1.sharedState
        = mergeObj ms.sharedState (stateArg.filter (fun p => isSharedKey cfg p.1)) ∧
    (agentId = none → (smSetState cfg ms stateArg agentId).1.agentStates = ms.agentStates) ∧
    (∀ aid, agentId = some aid →
      smGetAgentState cfg (smSetState cfg ms stateArg agentId).1 aid
          = mergeObj (smGetAgentState cfg ms aid)
              (stateArg.filter (fun p => isAgentKey cfg p.1)) ∧
      ∀ other, other ≠ aid →
        smGetAgentState cfg (smSetState cfg ms stateArg agentId).1 other
          = smGetAgentState cfg ms other) := by
  simp only [smSetState, routeChanges_spec]
  set sc := stateArg.filter (fun p => isSharedKey cfg p.1) with hsc
  set ms1 := (if sc.isEmpty then ms
    else
      if deepEqual ms.sharedState (mergeObj ms.sharedState sc) = true then ms
      else { ms with sharedState := mergeObj ms.sharedState sc }) with hms1def
  have hshared : ms1.sharedState = mergeObj ms.sharedState sc := by
    rw [hms1def]
    split
    · next he => rw [List.isEmpty_iff.mp he, mergeObj_nil_right]
    · split
      · next hde => exact deepEqual_eq hde
      · rfl
  have hagents : ms1.agentStates = ms.agentStates := by
    rw [hms1def]
    split
    · rfl
    · split <;> rfl
  cases agentId with
  | none => exact ⟨hshared, fun _ => hagents, fun aid h => absurd h (by simp)⟩
  | some aid =>
    set ac := stateArg.filter (fun p => isAgentKey cfg p.1) with hac
    set cur := (lookupAssoc ms1.agentStates aid).getD (buildDefaultAgentState cfg) with hcur
    have hcur_eq : cur = smGetAgentState cfg ms aid := by
      rw [hcur, hagents]; rfl
    refine ⟨?_, ?_, ?_⟩
    · simp only
      split
      · exact hshared
      · split
        · exact hshared
        · exact hshared
    · intro h
      exact absurd h (by simp)
    · intro aid' h
      obtain rfl : aid' = aid := by injection h with h; exact h.symm
      constructor
      · simp only
        split
        · next he =>
          rw [List.isEmpty_iff.mp he, mergeObj_nil_right]
          unfold smGetAgentState
          rw [hagents]
        · split
          · next hde =>
            rw [hagents] at hde
            unfold smGetAgentState
            rw [hagents]
            exact deepEqual_eq hde
          · unfold smGetAgentState
            simp only
            rw [hagents, lookupAssoc_setAssoc_self]
            rfl
      · intro other hne
        simp only
        split
        · next he =>
          unfold smGetAgentState
          rw [hagents]
        · split
          · next hde =>
            unfold smGetAgentState
            rw [hagents]
          · unfold smGetAgentState
            simp only
            rw [hagents, lookupAssoc_setAssoc_ne _ _ _ _ (Ne.symm hne)]

/-- C2: `StateManager.setState` splits its argument exactly by configured
scope.  Agent-scoped keys with no connection id and unconfigured keys are
dropped (without error: the operation is total); `sharedChanges` /
`agentChanges` are exactly the configured shared / agent entries of the
argument; the shared map becomes the merge of the old one with
`sharedChanges`; the attributed connection's scoped state becomes the merge of
its old scoped state with `agentChanges`, every other connection's scoped
state being untouched. -/
theorem crann_c2_setstate_routing (cfg : Config) (ms : ManagerState) (stateArg : Obj)
    (agentId : Option String) :
    (smSetState cfg ms stateArg agentId).2.1
        = stateArg.filter (fun p => isSharedKey cfg p.1) ∧
    (smSetState cfg ms stateArg agentId).2.2
        = (match agentId with
           | some _ => stateArg.filter (fun p => isAgentKey cfg p.1)
           | none => []) ∧
    (smSetState cfg ms stateArg agentId).1.sharedState
        = mergeObj ms.sharedState ((smSetState cfg ms stateArg agentId).2.1) ∧
    (agentId = none → (smSetState cfg ms stateArg agentId).1.agentStates = ms.agentStates) ∧
    (∀ aid, agentId = some aid →
      smGetAgentState cfg (smSetState cfg ms stateArg agentId).1 aid
          = mergeObj (smGetAgentState cfg ms aid)
              ((smSetState cfg ms stateArg agentId).2.2) ∧
      ∀ other, other ≠ aid →
        smGetAgentState cfg (smSetState cfg ms stateArg agentId).1 other
          = smGetAgentState cfg ms other) := by
  have hch := smSetState_changes cfg ms stateArg agentId
  have hsp := smSetState_state_spec cfg ms stateArg agentId
  have h1 : (smSetState cfg ms stateArg agentId).2.1
      = stateArg.filter (fun p => isSharedKey cfg p.1) := by rw [hch]
  have h2 : (smSetState cfg ms stateArg agentId).2.2
      = (match agentId with
         | some _ => stateArg.filter (fun p => isAgentKey cfg p.1)
         | none => []) := by rw [hch]
  refine ⟨h1, h2, ?_, hsp.2.1, ?_⟩
  · rw [h1]
    exact hsp.1
  · intro aid h
    subst h
    have := hsp.2.2 aid rfl
    refine ⟨?_, this.2⟩
    rw [h2]
    exact this.1

theorem getObj_eq_none_iff (o : Obj) (k : String) :
    getObj o k = none ↔ ∀ p ∈ o, (p.1 == k) = false := by
  constructor
  · intro h p hp
    by_contra hc
    simp only [Bool.not_eq_false] at hc
    have : (o.find? (fun q => q.1 == k)).isSome := List.find?_isSome.mpr ⟨p, hp, hc⟩
    unfold getObj at h
    cases hf : o.find? (fun q => q.1 == k) with
    | none => rw [hf] at this; exact absurd this (by simp)
    | some q => rw [hf] at h; exact Option.noConfusion h
  · intro h
    unfold getObj
    rw [List.find?_eq_none.mpr (fun p hp => by simp [h p hp])]
    rfl

theorem getObj_some_mem {o : Obj} {k : String} {v : Value} (h : getObj o k = some v) :
    ∃ p ∈ o, p.1 = k ∧ p.2 = v := by
  unfold getObj at h
  cases hf : o.find? (fun q => q.1 == k) with
  | none => rw [hf] at h; exact Option.noConfusion h
  | some q =>
    rw [hf] at h
    have hq := List.find?_some hf
    simp only at hq
    have hmem := List.mem_of_find?_eq_some hf
    exact ⟨q, hmem, eq_of_beq hq, by injection h⟩

theorem persistPlan_key_form (cfg : Config) (arg : Obj) :
    (∀ p ∈ (persistPlan cfg arg).1, ∃ k v, p = (buildKey cfg k, v)) ∧
    (∀ p ∈ (persistPlan cfg arg).2, ∃ k v, p = (buildKey cfg k, v)) := by
  induction arg with
  | nil => exact ⟨by simp [persistPlan], by simp [persistPlan]⟩
  | cons q arg ih =>
    cases hit : lookupItem cfg q.1 with
    | none =>
      simp only [persistPlan, hit]
      exact ih
    | some it =>
      cases hp : it.persist with
      | none =>
        simp only [persistPlan, hit, hp]
        exact ih
      | some pt =>
        cases pt with
        | Local =>
          simp only [persistPlan, hit, hp]
          refine ⟨?_, ih.2⟩
          intro p hpm
          rcases List.mem_cons.mp hpm with rfl | hpm
          · exact ⟨q.1, q.2, rfl⟩
          · exact ih.1 p hpm
        | Session =>
          simp only [persistPlan, hit, hp]
          refine ⟨ih.1, ?_⟩
          intro p hpm
          rcases List.mem_cons.mp hpm with rfl | hpm
          · exact ⟨q.1, q.2, rfl⟩
          · exact ih.2 p hpm
        | None =>
          simp only [persistPlan, hit, hp]
          exact ih

/-- C6: persisted value keys of two stores with distinct (name, version) pairs
never collide.  Every key `Persistence.persist` writes has the exact form
`crann:{name}:v{version}:{key}`; a value key of one store is never the other's
metadata key; and `hydrate()` of store B over a key space populated solely by
store A's `persist` returns nothing — B filters to its own name, version and
persist-enabled shared keys only. -/
theorem crann_c6_no_collision (cfgA cfgB : Config) (argA : Obj)
    (hA : nameOk cfgA.name = true) (hB : nameOk cfgB.name = true)
    (hdist : cfgA.name ≠ cfgB.name ∨ cfgA.version ≠ cfgB.version) :
    (∀ p ∈ (persistPlan cfgA argA).1, ∃ k v, p = (buildKey cfgA k, v)) ∧
    (∀ p ∈ (persistPlan cfgA argA).2, ∃ k v, p = (buildKey cfgA k, v)) ∧
    (∀ k, buildKey cfgB k ≠ getMetaKey cfgA) ∧
    hydrate cfgB (persistRun cfgA ⟨[], []⟩ argA).1 = [] := by
  have hform := persistPlan_key_form cfgA argA
  have hnone : ∀ k tier, (∀ p ∈ tier, ∃ k' v, p = (buildKey cfgA k', v)) →
      getObj tier (buildKey cfgB k) = none := by
    intro k tier htier
    rw [getObj_eq_none_iff]
    intro p hp
    rcases htier p hp with ⟨k', v, rfl⟩
    simp only
    by_contra hc
    simp only [Bool.not_eq_false] at hc
    have heq : buildKey cfgA k' = buildKey cfgB k := eq_of_beq hc
    rcases buildKey_inj hA hB heq with ⟨hn, hv, _⟩
    rcases hdist with hd | hd
    · exact hd hn
    · exact hd hv
  refine ⟨hform.1, hform.2, fun k => buildKey_ne_metaKey hB hA, ?_⟩
  unfold hydrate
  rw [List.filterMap_eq_nil_iff]
  intro p _
  by_cases hsc : p.2.scope = some ScopeT.Agent
  · simp [hsc]
  · cases hp : p.2.persist with
    | none => simp [hsc, hp]
    | some pt =>
      have hcomb : getObj
          (mergeObj (persistRun cfgA ⟨[], []⟩ argA).1.localStore
            (persistRun cfgA ⟨[], []⟩ argA).1.sessionStore) (buildKey cfgB p.1) = none := by
        have hl : (persistRun cfgA ⟨[], []⟩ argA).1.localStore = (persistPlan cfgA argA).1 := by
          unfold persistRun
          simp [mergeObj_nil_left]
        have hs : (persistRun cfgA ⟨[], []⟩ argA).1.sessionStore = (persistPlan cfgA argA).2 := by
          unfold persistRun
          simp [mergeObj_nil_left]
        rw [getObj_mergeObj, hl, hs, hnone p.1 _ hform.1, hnone p.1 _ hform.2]
      cases pt with
      | Local => simp [hsc, hp, hcomb]
      | Session => simp [hsc, hp, hcomb]
      | None => simp [hsc, hp]

/-- C6 witness: two concrete stores with the same name but different versions;
the first persists a durable key, the second hydrates nothing from it. -/
theorem crann_c6_witness :
    hydrate ⟨"demo", 2, [("count", ⟨Value.vInt 0, none, some PersistT.Local⟩)]⟩
        (persistRun cfgDemo ⟨[], []⟩ [("count", Value.vInt 5)]).1 = [] := by
  have h := crann_c6_no_collision cfgDemo
    ⟨"demo", 2, [("count", ⟨Value.vInt 0, none, some PersistT.Local⟩)]⟩
    [("count", Value.vInt 5)] (by decide) (by decide) (by right; decide)
  exact h.2.2.2

/-- C7: `ActionExecutor.execute` fails with a structured `ActionError` when no
actions are configured or the name is unknown, and with a structured
`ValidationError` carrying the thrown message when a declared validator throws
— in all three cases the outcome is a fixed error term, whatever the handler
is, so the handler is never invoked.  When the validator accepts (or none is
declared), the outcome is exactly the handler's: a resolution passes through,
and a throw/rejection is wrapped into an `ActionError` carrying the action
name, the store name and the message — the raw error never crosses. -/
theorem crann_c7_execute_errors (store nm : String) (snapshot : Obj) (args : List Value)
    (info : AgentInfoT) :
    (∀ acts, acts = none →
      executeAction ⟨store, acts⟩ snapshot nm args info
        = Except.error (CrannErr.actionErr nm store "No actions defined")) ∧
    (∀ acts, lookupAssoc acts nm = none →
      executeAction ⟨store, some acts⟩ snapshot nm args info
        = Except.error (CrannErr.actionErr nm store "Unknown action")) ∧
    (∀ acts adef vf msg, lookupAssoc acts nm = some adef → adef.validate = some vf →
      vf args = Except.error msg →
      executeAction ⟨store, some acts⟩ snapshot nm args info
        = Except.error (CrannErr.validationErr nm store msg)) ∧
    (∀ acts adef, lookupAssoc acts nm = some adef →
      (adef.validate = none ∨ ∃ vf, adef.validate = some vf ∧ vf args = Except.ok ()) →
      executeAction ⟨store, some acts⟩ snapshot nm args info
        = match adef.handler ⟨snapshot, info.id, info.location⟩ args with
          | Except.ok v => Except.ok v
          | Except.error msg => Except.error (CrannErr.actionErr nm store msg)) := by
  refine ⟨?_, ?_, ?_, ?_⟩
  · intro acts h
    subst h
    rfl
  · intro acts h
    simp only [executeAction, h]
  · intro acts adef vf msg hl hv herr
    simp only [executeAction, hl, hv, herr]
  · intro acts adef hl hv
    rcases hv with hv | ⟨vf, hvf, hok⟩
    · simp only [executeAction, hl, hv]
    · simp only [executeAction, hl, hvf, hok]

/-- C7 witness: the spec's gating example — a validator that throws for `-1`
blocks the handler for `-1` but not for `1`, and an unknown name fails
structurally. -/
theorem crann_c7_witness :
    executeAction ⟨"demo", some demoActions⟩
        [] "double" [Value.vInt (-1)] ⟨"a1", ⟨"popup", 1, 0⟩⟩
      = Except.error (CrannErr.validationErr "double" "demo" "negative") ∧
    executeAction ⟨"demo", some demoActions⟩
        [] "double" [Value.vInt 1] ⟨"a1", ⟨"popup", 1, 0⟩⟩
      = Except.ok (Value.vInt 2) ∧
    executeAction ⟨"demo", some demoActions⟩
        [] "nosuch" [] ⟨"a1", ⟨"popup", 1, 0⟩⟩
      = Except.error (CrannErr.actionErr "nosuch" "demo" "Unknown action") := by
  refine ⟨?_, ?_, ?_⟩
  · exact (crann_c7_execute_errors "demo" "double" [] [Value.vInt (-1)]
      ⟨"a1", ⟨"popup", 1, 0⟩⟩).2.2.1 demoActions demoDouble demoValidate "negative" rfl rfl rfl
  · have h := (crann_c7_execute_errors "demo" "double" [] [Value.vInt 1]
      ⟨"a1", ⟨"popup", 1, 0⟩⟩).2.2.2 demoActions demoDouble rfl
      (Or.inr ⟨demoValidate, rfl, rfl⟩)
    exact h
  · exact (crann_c7_execute_errors "demo" "nosuch" [] []
      ⟨"a1", ⟨"popup", 1, 0⟩⟩).2.1 demoActions rfl

theorem heapGet_some_lt {h : Heap} {r : Nat} {o : Obj} (hwf : heapWF h)
    (hg : heapGet h r = some o) : r < h.nextRef := by
  rcases hg' : h.objs.find? (fun p => p.1 == r) with _ | p
  · unfold heapGet lookupAssoc at hg
    rw [hg'] at hg
    exact Option.noConfusion hg
  · have hq := List.find?_some hg'
    simp only at hq
    have := hwf p (List.mem_of_find?_eq_some hg')
    rwa [eq_of_beq hq] at this

theorem heapGet_alloc_self (h : Heap) (o : Obj) (hwf : heapWF h) :
    heapGet (heapAlloc h o).2 (heapAlloc h o).1 = some o := by
  unfold heapAlloc heapGet
  simp only
  rw [lookupAssoc_append]
  have hnone : lookupAssoc h.objs h.nextRef = none := by
    apply lookupAssoc_eq_none_of_any_eq_false
    rw [List.any_eq_false]
    intro p hp
    have h2 := hwf p hp
    simp only [beq_iff_eq]
    omega
  rw [hnone, lookupAssoc_cons]
  simp

theorem heapGet_alloc_other (h : Heap) (o : Obj) (r : Nat) (hne : r ≠ h.nextRef) :
    heapGet (heapAlloc h o).2 r = heapGet h r := by
  unfold heapAlloc heapGet
  simp only
  rw [lookupAssoc_append]
  cases hl : lookupAssoc h.objs r with
  | some w => simp
  | none =>
    rw [lookupAssoc_cons]
    simp [beq_eq_false_iff_ne.mpr (Ne.symm hne), lookupAssoc_nil]

theorem heapGet_heapSet_ne (h : Heap) (r r' : Nat) (o : Obj) (hne : r ≠ r') :
    heapGet (heapSet h r o) r' = heapGet h r' := by
  unfold heapSet heapGet
  simp only
  exact lookupAssoc_mapSet_ne h.objs r r' o hne

theorem heapGet_heapSet_self {h : Heap} {r : Nat} {o₀ : Obj} (o' : Obj)
    (hg : heapGet h r = some o₀) :
    heapGet (heapSet h r o') r = some o' := by
  unfold heapSet heapGet
  simp only
  rw [lookupAssoc_mapSet]
  unfold heapGet at hg
  rw [hg]
  rfl

/-- C8 counterexample: `getAgentState(id)` for an id with a stored entry (the
state every connected agent has after `initializeAgentState`) returns the
manager's internal object by reference — the spread in
`this.agentStates.get(agentId) ?? { ...this.defaultAgentState }` sits only on
the default branch — so at this concrete input the returned reference is the
internal one and mutating the returned object changes the manager's stored
scoped state, falsifying the defensive-copy claim for such ids. -/
theorem crann_c8_counterexample :
    (mgrGetAgentStateHeap cfgDemo
        ⟨[(0, [("s", Value.vInt 1)]), (1, [("a", Value.vInt 1)])], 2⟩ [("a1", 1)] "a1").1
      = 1 ∧
    (mgrGetAgentStateHeap cfgDemo
        ⟨[(0, [("s", Value.vInt 1)]), (1, [("a", Value.vInt 1)])], 2⟩ [("a1", 1)] "a1").2
      = ⟨[(0, [("s", Value.vInt 1)]), (1, [("a", Value.vInt 1)])], 2⟩ ∧
    heapGet
        (heapSet
          (mgrGetAgentStateHeap cfgDemo
            ⟨[(0, [("s", Value.vInt 1)]), (1, [("a", Value.vInt 1)])], 2⟩ [("a1", 1)] "a1").2
          (mgrGetAgentStateHeap cfgDemo
            ⟨[(0, [("s", Value.vInt 1)]), (1, [("a", Value.vInt 1)])], 2⟩ [("a1", 1)] "a1").1
          [("a", Value.vInt 9)])
        1
      = some [("a", Value.vInt 9)] := ⟨rfl, rfl, rfl⟩

/-- C8 (amended): `getSharedState()` returns a defensive copy — a fresh
reference whose contents equal the internal object's, with mutation through it
never reaching the manager — and `getAgentState(id)` for an id with no stored
entry returns a fresh copy of the config's agent-scope defaults, equally safe
to mutate.  For an id with a stored entry, however, `getAgentState` returns
the internal stored object by reference (no copy is made, and the heap is
untouched), so mutating the returned object does change the manager's internal
scoped state. -/
theorem crann_c8_copies_amended (cfg : Config) (h : Heap) (sharedRef : Nat) (sObj : Obj)
    (agentRefs : List (String × Nat)) (aid aid' : String) (r : Nat) (aObj : Obj)
    (hwf : heapWF h) (hs : heapGet h sharedRef = some sObj)
    (hmiss : lookupAssoc agentRefs aid = none)
    (hhit : lookupAssoc agentRefs aid' = some r) (ha : heapGet h r = some aObj) :
    (mgrGetSharedStateHeap h sharedRef).1 ≠ sharedRef ∧
    heapGet (mgrGetSharedStateHeap h sharedRef).2 (mgrGetSharedStateHeap h sharedRef).1
      = some sObj ∧
    (∀ o' : Obj,
      heapGet (heapSet (mgrGetSharedStateHeap h sharedRef).2
          (mgrGetSharedStateHeap h sharedRef).1 o') sharedRef
        = some sObj) ∧
    heapGet (mgrGetAgentStateHeap cfg h agentRefs aid).2
        (mgrGetAgentStateHeap cfg h agentRefs aid).1
      = some (buildDefaultAgentState cfg) ∧
    (∀ o' : Obj,
      heapGet (heapSet (mgrGetAgentStateHeap cfg h agentRefs aid).2
          (mgrGetAgentStateHeap cfg h agentRefs aid).1 o') sharedRef
        = some sObj) ∧
    (mgrGetAgentStateHeap cfg h agentRefs aid').1 = r ∧
    (mgrGetAgentStateHeap cfg h agentRefs aid').2 = h ∧
    (∀ o' : Obj,
      heapGet (heapSet (mgrGetAgentStateHeap cfg h agentRefs aid').2
          (mgrGetAgentStateHeap cfg h agentRefs aid').1 o') r
        = some o') := by
  have hlt : sharedRef < h.nextRef := heapGet_some_lt hwf hs
  have hne : h.nextRef ≠ sharedRef := by omega
  have hcopy : (heapGet h sharedRef).getD [] = sObj := by rw [hs]; rfl
  refine ⟨?_, ?_, ?_, ?_, ?_, ?_, ?_, ?_⟩
  · unfold mgrGetSharedStateHeap heapAlloc
    simp only
    omega
  · unfold mgrGetSharedStateHeap
    rw [hcopy]
    exact heapGet_alloc_self h sObj hwf
  · intro o'
    unfold mgrGetSharedStateHeap
    rw [hcopy]
    have h1 : heapGet (heapAlloc h sObj).2 sharedRef = some sObj := by
      rw [heapGet_alloc_other h sObj sharedRef (by omega)]
      exact hs
    rw [show (heapAlloc h sObj).1 = h.nextRef from rfl, heapGet_heapSet_ne _ _ _ _ hne]
    exact h1
  · unfold mgrGetAgentStateHeap
    rw [hmiss]
    exact heapGet_alloc_self h _ hwf
  · intro o'
    unfold mgrGetAgentStateHeap
    rw [hmiss]
    rw [show (heapAlloc h (buildDefaultAgentState cfg)).1 = h.nextRef from rfl,
      heapGet_heapSet_ne _ _ _ _ hne]
    rw [heapGet_alloc_other h _ sharedRef (by omega)]
    exact hs
  · unfold mgrGetAgentStateHeap
    rw [hhit]
  · unfold mgrGetAgentStateHeap
    rw [hhit]
  · intro o'
    unfold mgrGetAgentStateHeap
    rw [hhit]
    exact heapGet_heapSet_self o' ha

/-- C8 witness: a concrete heap with the manager's shared object at reference
0 and one stored agent entry at reference 1: the shared copy is safe to
mutate, an unknown id gets the defaults, and the stored agent entry comes back
as reference 1 itself. -/
theorem crann_c8_copies_witness :
    heapGet
        (heapSet
          (mgrGetSharedStateHeap
            ⟨[(0, [("s", Value.vInt 1)]), (1, [("a", Value.vInt 1)])], 2⟩ 0).2
          (mgrGetSharedStateHeap
            ⟨[(0, [("s", Value.vInt 1)]), (1, [("a", Value.vInt 1)])], 2⟩ 0).1
          [("s", Value.vInt 9)])
        0
      = some [("s", Value.vInt 1)] ∧
    heapGet
        (mgrGetAgentStateHeap cfgDemo
          ⟨[(0, [("s", Value.vInt 1)]), (1, [("a", Value.vInt 1)])], 2⟩ [("a1", 1)] "zz").2
        (mgrGetAgentStateHeap cfgDemo
          ⟨[(0, [("s", Value.vInt 1)]), (1, [("a", Value.vInt 1)])], 2⟩ [("a1", 1)] "zz").1
      = some (buildDefaultAgentState cfgDemo) ∧
    (mgrGetAgentStateHeap cfgDemo
        ⟨[(0, [("s", Value.vInt 1)]), (1, [("a", Value.vInt 1)])], 2⟩ [("a1", 1)] "a1").1
      = 1 := by
  have h := crann_c8_copies_amended cfgDemo
    ⟨[(0, [("s", Value.vInt 1)]), (1, [("a", Value.vInt 1)])], 2⟩ 0
    [("s", Value.vInt 1)] [("a1", 1)] "zz" "a1" 1 [("a", Value.vInt 1)]
    (by
      intro p hp
      rcases List.mem_cons.mp hp with rfl | hp
      · decide
      · rcases List.mem_singleton.mp hp with rfl
        decide)
    (by decide) (by decide) (by decide) (by decide)
  exact ⟨h.2.2.1 [("s", Value.vInt 9)], h.2.2.2.1, h.2.2.2.2.2.1⟩

/-- C10 counterexample: the claim says every public operation other than the
second destroy/disconnect throws a lifecycle error on a dead instance, but
`Agent.getInfo()` carries no lifecycle assertion: on a freshly disconnected
agent it returns normally (with `null`) instead of throwing. -/
theorem crann_c10_counterexample :
    agentGetInfo cfgDemo (agentDisconnect (agentInit cfgDemo)) = Except.ok none ∧
    (agentDisconnect (agentInit cfgDemo)).isDisconnected = true := ⟨rfl, rfl⟩

/-- C10 (amended): `Store.destroy` and `Agent.disconnect` are idempotent — a
second call returns without effect (and fires no `clearAll`) — and on a
destroyed Store / disconnected Agent every public operation throws the
lifecycle error, with the single exception of `Agent.getInfo`, which returns
normally. -/
theorem crann_c10_lifecycle (cfg : Config) :
    (∀ (s : StoreModel) (o o' : Bool),
      (storeDestroy (storeDestroy s o).1 o').1 = (storeDestroy s o).1 ∧
      (storeDestroy (storeDestroy s o).1 o').2 = false ∧
      (storeDestroy s o).1.isDestroyed = true) ∧
    (∀ m : AgentModel,
      agentDisconnect (agentDisconnect m) = agentDisconnect m ∧
      (agentDisconnect m).isDisconnected = true) ∧
    (∀ s : StoreModel, s.isDestroyed = true →
      storeGetState cfg s = Except.error (storeDestroyedMsg cfg) ∧
      (∀ aid, storeGetAgentState cfg s aid = Except.error (storeDestroyedMsg cfg)) ∧
      (∀ arg agentId, storeSetState cfg s arg agentId
        = Except.error (storeDestroyedMsg cfg)) ∧
      (∀ aid arg, storeSetAgentState cfg s aid arg = Except.error (storeDestroyedMsg cfg)) ∧
      storeClear cfg s = Except.error (storeDestroyedMsg cfg) ∧
      storeSubscribe cfg s = Except.error (storeDestroyedMsg cfg) ∧
      storeOnAgentConnect cfg s = Except.error (storeDestroyedMsg cfg) ∧
      storeOnAgentDisconnect cfg s = Except.error (storeDestroyedMsg cfg) ∧
      storeGetAgents cfg s = Except.error (storeDestroyedMsg cfg)) ∧
    (∀ m : AgentModel, m.isDisconnected = true →
      agentReady cfg m = Except.error (agentDisconnectedMsg cfg) ∧
      agentOnReady cfg m = Except.error (agentDisconnectedMsg cfg) ∧
      agentGetState cfg m = Except.error (agentDisconnectedMsg cfg) ∧
      (∀ arg, agentSetState cfg m arg = Except.error (agentDisconnectedMsg cfg)) ∧
      agentSubscribe cfg m = Except.error (agentDisconnectedMsg cfg) ∧
      agentOnDisconnect cfg m = Except.error (agentDisconnectedMsg cfg) ∧
      agentOnReconnect cfg m = Except.error (agentDisconnectedMsg cfg) ∧
      agentActionsGetter cfg m = Except.error (agentDisconnectedMsg cfg) ∧
      (∀ nm args, agentCallRpc cfg m nm args = Except.error (agentDisconnectedMsg cfg)) ∧
      agentGetInfo cfg m = Except.ok m.agentInfo) := by
  refine ⟨?_, ?_, ?_, ?_⟩
  · intro s o o'
    unfold storeDestroy
    by_cases hd : s.isDestroyed
    · simp [hd]
    · simp [hd]
  · intro m
    unfold agentDisconnect
    by_cases hd : m.isDisconnected
    · simp [hd]
    · simp [hd]
  · intro s hd
    refine ⟨?_, ?_, ?_, ?_, ?_, ?_, ?_, ?_, ?_⟩ <;>
      simp [storeGetState, storeGetAgentState, storeSetState, storeSetAgentState,
        storeClear, storeSubscribe, storeOnAgentConnect, storeOnAgentDisconnect,
        storeGetAgents, hd]
  · intro m hd
    refine ⟨?_, ?_, ?_, ?_, ?_, ?_, ?_, ?_, ?_, ?_⟩ <;>
      simp [agentReady, agentOnReady, agentGetState, agentSetState, agentSubscribe,
        agentOnDisconnect, agentOnReconnect, agentActionsGetter, agentCallRpc,
        agentGetInfo, hd]

/-- C10 witness: a destroyed concrete store and a disconnected concrete agent
reject their public operations with the lifecycle error. -/
theorem crann_c10_witness :
    storeGetState cfgDemo (storeDestroy (storeInit cfgDemo) false).1
      = Except.error (storeDestroyedMsg cfgDemo) ∧
    agentGetState cfgDemo (agentDisconnect (agentInit cfgDemo))
      = Except.error (agentDisconnectedMsg cfgDemo) := by
  have h := crann_c10_lifecycle cfgDemo
  exact ⟨(h.2.2.1 (storeDestroy (storeInit cfgDemo) false).1 rfl).1,
         (h.2.2.2 (agentDisconnect (agentInit cfgDemo)) rfl).2.2.1⟩

/-- C2 witness: concrete routing — a shared key, an agent key and an unknown
key; the agent key lands in the attributed connection's scoped state only. -/
theorem crann_c2_witness :
    (smSetState cfgDemo (mgrInit cfgDemo)
        [("s", Value.vInt 5), ("a", Value.vInt 7), ("zz", Value.vInt 9)] (some "x")).2.1
      = [("s", Value.vInt 5)] ∧
    (smSetState cfgDemo (mgrInit cfgDemo)
        [("s", Value.vInt 5), ("a", Value.vInt 7), ("zz", Value.vInt 9)] (some "x")).2.2
      = [("a", Value.vInt 7)] ∧
    smGetAgentState cfgDemo
        (smSetState cfgDemo (mgrInit cfgDemo)
          [("s", Value.vInt 5), ("a", Value.vInt 7), ("zz", Value.vInt 9)] (some "x")).1 "x"
      = [("a", Value.vInt 7)] ∧
    smGetAgentState cfgDemo
        (smSetState cfgDemo (mgrInit cfgDemo)
          [("s", Value.vInt 5), ("a", Value.vInt 7), ("zz", Value.vInt 9)] (some "x")).1 "y"
      = smGetAgentState cfgDemo (mgrInit cfgDemo) "y" := by
  have h := crann_c2_setstate_routing cfgDemo (mgrInit cfgDemo)
    [("s", Value.vInt 5), ("a", Value.vInt 7), ("zz", Value.vInt 9)] (some "x")
  obtain ⟨h1, h2, _h3, _h4, h5⟩ := h
  obtain ⟨h6, h7⟩ := h5 "x" rfl
  refine ⟨?_, ?_, ?_, h7 "y" (by decide)⟩
  · rw [h1]; decide
  · rw [h2]; decide
  · rw [h6, h2]; decide

/-- C3 witness: a concrete first call from a fresh agent gets correlation id
`"0"` and bumps the counter to 1. -/
theorem crann_c3_witness :
    ∃ m' : AgentModel, ∃ p : RpcPost,
      agentCallRpc cfgDemo (agentInit cfgDemo) "ping" [] = Except.ok (m', p) ∧
      p.callId = "0" ∧ m'.nextCallId = 1 := by
  have h := (crann_c3_rpc_correlation cfgDemo "ping" "pong" [] [] Value.vNull "e").1
  refine ⟨_, _, rfl, ?_, ?_⟩
  · have h2 := h (agentInit cfgDemo) "ping" [] _ _ rfl
    rw [h2.1]
    rfl
  · have h2 := h (agentInit cfgDemo) "ping" [] _ _ rfl
    rw [h2.2]
    rfl

end Crann
